import Mathlib

/-!
Verification of the evidence-connector-mssql connector.

The definitions below are a shallow embedding of the two JavaScript source
files of the repository: the retry wrappers (`withRetry` from the unnamed
source file, `retry` from src/datasource/src/index.cjs), the type mapper
(`nativeTypeToEvidenceType`, `mapResultsToEvidenceColumnTypes`), the
credential builder (`buildConfig`), and the streaming query executor
(`runQuery`'s count-estimate, batching and error-flattening behaviour).
Thrown JavaScript values are modelled by the `Thrown` inductive; machine
floats used for delays are modelled by exact rationals; asynchronous calls
become explicit call sequences `Nat → Except Thrown α` where call `i` is the
outcome of the (i+1)-th invocation of the wrapped work function.
-/

/-- Model of the characters-level test that one character list starts with
another; mirrors the prefix test underlying JavaScript `includes`. -/
def charsStartWith : List Char → List Char → Bool
  | _, [] => true
  | [], _ :: _ => false
  | a :: as, b :: bs => a == b && charsStartWith as bs

/-- Substring occurrence test on character lists, the semantics of
JavaScript `haystack.includes(needle)`. -/
def charsContain : List Char → List Char → Bool
  | [], needle => needle.isEmpty
  | a :: as, needle => charsStartWith (a :: as) needle || charsContain as needle

/-- JavaScript `hay.includes(nee)` on Lean strings. -/
def strIncludes (hay nee : String) : Bool := charsContain hay.data nee.data

/-- JavaScript `s.toLowerCase()` (ASCII case folding, as used by the
sources on ASCII error signatures). -/
def lowerStr (s : String) : String := String.mk (s.data.map Char.toLower)

/-- JavaScript `s.replace(/\n|\r/g, ' ')`: every newline or carriage-return
character becomes a single space. -/
def flattenNewlines (s : String) : String :=
  String.mk (s.data.map (fun c => if c = '\n' ∨ c = '\r' then ' ' else c))

/-- A thrown JavaScript value as it reaches the catch blocks of the
sources: an Error object carrying a message, a plain string, a truthy
non-string object (retaining only its toString rendering, it has no
`message` property), or a falsy/valueless throw (null, undefined, ...). -/
inductive Thrown where
  | errObj (message : String)
  | str (s : String)
  | obj (toStr : String)
  | nullish
  deriving DecidableEq

/-- The fixed transient-error signature list of `withRetry`
(src/unnamed/part_000, lines 174-191). -/
def retryableErrors : List String :=
  ["ETIMEOUT", "ECONNRESET", "ECONNREFUSED", "ESOCKET",
   "PROTOCOL_SEQUENCE_TIMEOUT", "EALREADYCONNECTED", "EALREADYCONNECTING",
   "Failed to connect", "Connection lost", "Timeout", "Socket hang up",
   "Network error", "Request failed", "Deadlock",
   "The connection has been lost", "The server has reset the connection"]

/-- The `shouldRetry` classifier of `withRetry` (src/unnamed/part_000,
lines 193-209): when the error has a truthy `message`, match it
case-insensitively against the signature list; when the error is a string,
match the string itself; otherwise the error is not retryable. -/
def shouldRetry (err : Thrown) : Bool :=
  match err with
  | .errObj m =>
      if m = "" then false
      else retryableErrors.any (fun errMsg => strIncludes (lowerStr m) (lowerStr errMsg))
  | .str s => retryableErrors.any (fun errMsg => strIncludes (lowerStr s) (lowerStr errMsg))
  | .obj _ => false
  | .nullish => false

/-- The retry policy options of `withRetry` (src/unnamed/part_000, lines
167-171); delays are exact rationals standing in for JavaScript numbers. -/
structure WithRetryOptions where
  maxRetries : Nat
  baseDelay : ℚ
  maxDelay : ℚ

/-- One step of the `while (true)` loop of `withRetry` (src/unnamed/
part_000, lines 211-235). `fn i` is the outcome of the (i+1)-th invocation
of the work function, `rand i` the `Math.random()` draw made after the
(i+1)-th failure, and `attempts` the number of invocations already made.
The result carries the final outcome, the total number of invocations of
`fn`, and the list of computed backoff delays in order. The JavaScript
loop increments `attempts` on each failure and throws when
`attempts >= maxRetries` or the error is not retryable; otherwise it
waits `min(maxDelay, baseDelay * 2^(attempts-1) * (1 + Math.random() * 0.2))`
and retries. The extra `gas` argument is spare structural-recursion fuel
only; every call made through `withRetry` maintains
`o.maxRetries ≤ attempts + gas + 1`, which keeps the fuel-exhausted branch
unreachable, so `gas` never influences the modelled behaviour. -/
def withRetryGo {α : Type} (fn : Nat → Except Thrown α) (o : WithRetryOptions)
    (rand : Nat → ℚ) (attempts gas : Nat) : Except Thrown α × Nat × List ℚ :=
  match fn attempts with
  | .ok a => (.ok a, attempts + 1, [])
  | .error err =>
    if o.maxRetries ≤ attempts + 1 ∨ shouldRetry err = false then
      (.error err, attempts + 1, [])
    else
      match gas with
      | 0 => (.error err, attempts + 1, [])
      | g + 1 =>
        let delay := min o.maxDelay (o.baseDelay * 2 ^ attempts * (1 + rand attempts * (1/5)))
        let rest := withRetryGo fn o rand (attempts + 1) g
        (rest.1, rest.2.1, delay :: rest.2.2)

/-- The `withRetry` wrapper of src/unnamed/part_000 (lines 166-236),
started with zero prior attempts and enough fuel for its loop. -/
def withRetry {α : Type} (fn : Nat → Except Thrown α) (o : WithRetryOptions)
    (rand : Nat → ℚ) : Except Thrown α × Nat × List ℚ :=
  withRetryGo fn o rand 0 o.maxRetries

/-- A JavaScript Error object after the normalisation step of `retry`
(src/datasource/src/index.cjs, lines 26-36): only its message survives
into the model. -/
structure NormError where
  message : String
  deriving DecidableEq

/-- The error normalisation of `retry` (src/datasource/src/index.cjs,
lines 26-36): Error objects pass through, strings are wrapped in an
Error, other truthy values are wrapped via their toString rendering, and
valueless throws become the Error "Unknown error". -/
def normalizeThrown : Thrown → NormError
  | .errObj m => ⟨m⟩
  | .str s => ⟨s⟩
  | .obj t => ⟨t⟩
  | .nullish => ⟨"Unknown error"⟩

/-- The `err.message || err.toString()` expression of `retry`
(src/datasource/src/index.cjs, line 38) applied to a normalised Error:
an empty message is falsy, in which case Error.prototype.toString on a
message-less Error yields the string "Error". -/
def errorMessageOf (e : NormError) : String :=
  if e.message = "" then "Error" else e.message

/-- The resolved options of `retry` (src/datasource/src/index.cjs, line
20); `delay` and `backoffFactor` are exact rationals standing in for
JavaScript numbers. -/
structure RetryOptions where
  retries : Nat
  delay : ℚ
  backoffFactor : ℚ
  retryableErrors : List String

/-- The options object actually passed to `retry`, before the JavaScript
destructuring defaults are applied; a `none` field means the caller gave
no explicit value. -/
structure RetryCallOptions where
  retries : Option Nat
  delay : Option ℚ
  backoffFactor : Option ℚ
  retryableErrors : Option (List String)

/-- The destructuring defaults of `retry` (src/datasource/src/index.cjs,
line 20): `retries = 3, delay = 1000, backoffFactor = 2,
retryableErrors = []`. -/
def resolveRetryOptions (c : RetryCallOptions) : RetryOptions :=
  { retries := c.retries.getD 3
    delay := c.delay.getD 1000
    backoffFactor := c.backoffFactor.getD 2
    retryableErrors := c.retryableErrors.getD [] }

/-- One step of the `for (let attempt = 1; attempt <= retries + 1; ...)`
loop of `retry` (src/datasource/src/index.cjs, lines 21-55). `calls` is
the number of invocations already made, so the JavaScript loop variable
`attempt` equals `calls + 1`; `fn i` is the outcome of the (i+1)-th
invocation. The loop normalises the caught error, classifies it by
substring match of `errorMessage` against `retryableErrors`, rethrows
when the error is not retryable or `attempt === retries + 1`, and
otherwise waits `delay * backoffFactor^(attempt-1)` and retries. The
result carries the final outcome, the total number of invocations, and
the computed wait times in order. `gas` is spare structural-recursion
fuel only; calls through `retry` maintain `o.retries ≤ calls + gas`,
keeping the fuel-exhausted branch unreachable. -/
def retryGo {α : Type} (fn : Nat → Except Thrown α) (o : RetryOptions)
    (calls gas : Nat) : Except NormError α × Nat × List ℚ :=
  match fn calls with
  | .ok a => (.ok a, calls + 1, [])
  | .error e0 =>
    let lastError := normalizeThrown e0
    let errorMessage := errorMessageOf lastError
    let isRetryable := o.retryableErrors.any (fun retryError => strIncludes errorMessage retryError)
    if isRetryable = false ∨ calls + 1 = o.retries + 1 then
      (.error lastError, calls + 1, [])
    else
      match gas with
      | 0 => (.error lastError, calls + 1, [])
      | g + 1 =>
        let waitTime := o.delay * o.backoffFactor ^ calls
        let rest := retryGo fn o (calls + 1) g
        (rest.1, rest.2.1, waitTime :: rest.2.2)

/-- The `retry` wrapper of src/datasource/src/index.cjs (lines 20-55),
started at the first attempt with enough fuel for its loop. -/
def retry {α : Type} (fn : Nat → Except Thrown α) (o : RetryOptions) :
    Except NormError α × Nat × List ℚ :=
  retryGo fn o 0 o.retries

/-- The portable column type enum `EvidenceType` of @evidence-dev/
db-commons, as used by the sources. -/
inductive EvidenceType where
  | number
  | date
  | string
  | boolean
  deriving DecidableEq

/-- The fidelity marker `TypeFidelity` of @evidence-dev/db-commons, as
used by the sources. -/
inductive TypeFidelity where
  | precise
  | inferred
  deriving DecidableEq

/-- The native type tags `mssql.TYPES.*` that appear in the switch of
`nativeTypeToEvidenceType` (src/datasource/src/index.cjs, lines 63-109). -/
inductive SqlType where
  | int
  | tinyInt
  | bigInt
  | smallInt
  | float
  | real
  | decimal
  | numeric
  | smallMoney
  | money
  | dateTime
  | smallDateTime
  | dateTimeOffset
  | date
  | dateTime2
  | varChar
  | nVarChar
  | char
  | nChar
  | xml
  | text
  | nText
  | bit
  | time
  | uniqueIdentifier
  | binary
  | varBinary
  | image
  | tvp
  | udt
  | geography
  | geometry
  | variant
  deriving DecidableEq

/-- The switch of `nativeTypeToEvidenceType` (src/datasource/src/
index.cjs, lines 63-109). The JavaScript default for `defaultType` is
`undefined`; callers in the sources pass nothing, i.e. `none`. -/
def nativeTypeToEvidenceType (data_type : SqlType) (defaultType : Option EvidenceType) :
    Option EvidenceType :=
  match data_type with
  | .int | .tinyInt | .bigInt | .smallInt | .float | .real
  | .decimal | .numeric | .smallMoney | .money => some EvidenceType.number
  | .dateTime | .smallDateTime | .dateTimeOffset | .date | .dateTime2 => some EvidenceType.date
  | .varChar | .nVarChar | .char | .nChar | .xml | .text | .nText => some EvidenceType.string
  | .bit => some EvidenceType.boolean
  | .time | .uniqueIdentifier | .binary | .varBinary | .image
  | .tvp | .udt | .geography | .geometry | .variant => defaultType

/-- One entry of the driver-reported column metadata handed to
`mapResultsToEvidenceColumnTypes`: a column name and its native type tag. -/
structure ColumnMetadata where
  name : String
  type : SqlType
  deriving DecidableEq

/-- One entry of the column-type decoration produced by
`mapResultsToEvidenceColumnTypes`. -/
structure EvidenceColumnType where
  name : String
  evidenceType : EvidenceType
  typeFidelity : TypeFidelity
  deriving DecidableEq

/-- The `mapResultsToEvidenceColumnTypes` function (src/datasource/src/
index.cjs, lines 116-131): per column, start from fidelity PRECISE and
the looked-up type; when the lookup yields nothing, fall back to STRING
with fidelity INFERRED. The driver metadata object is modelled as the
ordered list produced by `Object.values`. -/
def mapResultsToEvidenceColumnTypes (fields : List ColumnMetadata) : List EvidenceColumnType :=
  fields.map (fun field =>
    match nativeTypeToEvidenceType field.type none with
    | some evidenceType =>
        { name := field.name, evidenceType := evidenceType, typeFidelity := TypeFidelity.precise }
    | none =>
        { name := field.name, evidenceType := EvidenceType.string, typeFidelity := TypeFidelity.inferred })

/-- The portable-type table exactly as the specification words it (spec
section 4.2 and claim C2): integer/decimal/money families to NUMBER,
the date-and-time/datetime-offset families to DATE, character/text/xml
families to STRING, the single-bit family to BOOLEAN, every tag outside
the table (binary, unique-identifier, spatial, variant, table-valued and
the remaining tags) to STRING with fidelity INFERRED; tags inside the
table carry fidelity PRECISE. Stated from the specification for
comparison against the implementation. -/
def specPortableType (t : SqlType) : EvidenceType × TypeFidelity :=
  match t with
  | .int | .tinyInt | .bigInt | .smallInt | .float | .real
  | .decimal | .numeric | .smallMoney | .money => (EvidenceType.number, TypeFidelity.precise)
  | .dateTime | .smallDateTime | .dateTimeOffset | .date | .dateTime2 =>
      (EvidenceType.date, TypeFidelity.precise)
  | .varChar | .nVarChar | .char | .nChar | .xml | .text | .nText =>
      (EvidenceType.string, TypeFidelity.precise)
  | .bit => (EvidenceType.boolean, TypeFidelity.precise)
  | _ => (EvidenceType.string, TypeFidelity.inferred)

/-- A JavaScript value that is either a boolean or a string, the shapes
the sources compare with `=== 'true' || === true`. -/
inductive BoolOrStr where
  | bVal (b : Bool)
  | sVal (s : String)
  deriving DecidableEq

/-- A JavaScript value that is either a number or a string, the shapes
the sources feed to `parseInt`. Integers suffice for the ports and
timeouts handled here. -/
inductive NumOrStr where
  | nVal (n : Int)
  | sVal (s : String)
  deriving DecidableEq

/-- Numeric value of a list of decimal digit characters. -/
def digitsToNat (l : List Char) : Nat :=
  l.foldl (fun a c => a * 10 + (c.toNat - 48)) 0

/-- JavaScript `parseInt` restricted to the base-10 integer shapes that
occur here: skip leading spaces, take an optional sign and the leading
run of digits; `none` models the NaN result when no digit is found.
Numbers round-trip through their decimal rendering, which on the
integers modelled here is the identity. -/
def parseIntJS : NumOrStr → Option Int
  | .nVal n => some n
  | .sVal s =>
    let cs := s.data.dropWhile (fun c => c = ' ')
    match cs with
    | '-' :: rest =>
      let d := rest.takeWhile Char.isDigit
      if d.isEmpty then none else some (-(digitsToNat d : Int))
    | '+' :: rest =>
      let d := rest.takeWhile Char.isDigit
      if d.isEmpty then none else some ((digitsToNat d : Int))
    | _ =>
      let d := cs.takeWhile Char.isDigit
      if d.isEmpty then none else some ((digitsToNat d : Int))

/-- The `authentication` block that `buildConfig` (src/datasource/src/
index.cjs, lines 133-195) attaches to the credentials: one constructor
per populated `authentication.type`, each carrying exactly the fields its
branch copies out of the configuration. -/
inductive Authentication where
  | azureActiveDirectoryDefault
  | azureActiveDirectoryAccessToken (token : Option String)
  | azureActiveDirectoryPassword (userName password clientId tenantId : Option String)
  | azureActiveDirectoryServicePrincipalSecret (clientId clientSecret tenantId : Option String)
  deriving DecidableEq

/-- The nested `options` object of the credentials built by
`buildConfig`. -/
structure CredentialOptions where
  trustServerCertificate : Bool
  encrypt : Bool
  deriving DecidableEq

/-- The driver-ready connection descriptor built by `buildConfig`;
`authentication = none` models the absence of the `authentication`
property, and `none` in the parsed numeric fields models NaN. -/
structure Credentials where
  user : Option String
  server : Option String
  database : Option String
  password : Option String
  port : Option Int
  connectionTimeout : Option Int
  requestTimeout : Option Int
  options : CredentialOptions
  authentication : Option Authentication
  deriving DecidableEq

/-- The configuration object handed to `buildConfig`; a `none` field is
an absent (undefined) property. The guard of `buildConfig` that throws
when the argument is not an object is outside this typed model, which
only receives objects. -/
structure MsSqlDatabase where
  user : Option String
  server : Option String
  database : Option String
  password : Option String
  trust_server_certificate : Option BoolOrStr
  encrypt : Option BoolOrStr
  connection_timeout : Option NumOrStr
  request_timeout : Option NumOrStr
  connection_port : Option NumOrStr
  authenticationType : Option String
  attoken : Option String
  pwuname : Option String
  pwpword : Option String
  pwclientid : Option String
  pwtenantid : Option String
  spclientid : Option String
  spclientsecret : Option String
  sptenantid : Option String

/-- The `buildConfig` function (src/datasource/src/index.cjs, lines
133-195, identical in src/unnamed/part_000 lines 86-148): apply the
`??` defaults, build the base credentials, then dispatch on
`authenticationType`; the 'default' branch returns the credentials with
no authentication block, the four azure-active-directory branches attach
their block, and any other discriminator falls off the end of the
function, returning undefined, modelled as `none`. -/
def buildConfig (database : MsSqlDatabase) : Option Credentials :=
  let trust_server_certificate := database.trust_server_certificate.getD (BoolOrStr.sVal "false")
  let encrypt := database.encrypt.getD (BoolOrStr.sVal "true")
  let connection_timeout := database.connection_timeout.getD (NumOrStr.nVal 30000)
  let request_timeout := database.request_timeout.getD (NumOrStr.nVal 30000)
  let database_port := database.connection_port.getD (NumOrStr.nVal 1433)
  let credentials : Credentials :=
    { user := database.user
      server := database.server
      database := database.database
      password := database.password
      port := parseIntJS database_port
      connectionTimeout := parseIntJS connection_timeout
      requestTimeout := parseIntJS request_timeout
      options :=
        { trustServerCertificate :=
            trust_server_certificate == BoolOrStr.sVal "true" ||
              trust_server_certificate == BoolOrStr.bVal true
          encrypt := encrypt == BoolOrStr.sVal "true" || encrypt == BoolOrStr.bVal true }
      authentication := none }
  if database.authenticationType = some "default" then
    some credentials
  else if database.authenticationType = some "azure-active-directory-default" then
    some { credentials with authentication := some Authentication.azureActiveDirectoryDefault }
  else if database.authenticationType = some "azure-active-directory-access-token" then
    some { credentials with
            authentication := some (Authentication.azureActiveDirectoryAccessToken database.attoken) }
  else if database.authenticationType = some "azure-active-directory-password" then
    some { credentials with
            authentication := some (Authentication.azureActiveDirectoryPassword
              database.pwuname database.pwpword database.pwclientid database.pwtenantid) }
  else if database.authenticationType = some "azure-active-directory-service-principal-secret" then
    some { credentials with
            authentication := some (Authentication.azureActiveDirectoryServicePrincipalSecret
              database.spclientid database.spclientsecret database.sptenantid) }
  else
    none

/-- Modelled from the spec: the batching helper
`asyncIterableToBatchedAsyncGenerator` lives in the external package
@evidence-dev/db-commons and is not under src/; per spec section 4.5 step
4 it converts the row stream into consecutive batches of at most
`batchSize` rows, preserving source row order, and the sequence is
finite. `chunkRows batchSize rows` is that sequence; a non-positive
batch size is outside the spec and yields no batches. -/
def chunkRows {ρ : Type} (batchSize : Nat) (rows : List ρ) : List (List ρ) :=
  match rows with
  | [] => []
  | r :: rs =>
    if _h : batchSize = 0 then []
    else (r :: rs).take batchSize :: chunkRows batchSize ((r :: rs).drop batchSize)
termination_by rows.length
decreasing_by
  simp only [List.length_drop, List.length_cons]
  omega

/-- The environment one call of `runQuery` (src/datasource/src/index.cjs,
lines 214-242) observes from the database: the outcome of the wrapped
`SELECT COUNT(*)` estimate query, the driver-reported column metadata
delivered by the one-shot 'recordset' event, and the full row sequence
of the streamed primary query. -/
structure QueryEnv (ρ : Type) where
  countResult : Except String Nat
  columns : List ColumnMetadata
  rows : List ρ

/-- The decorated batch sequence `runQuery` returns: the batches produced
by the db-commons helper, the `columnTypes` decoration, and the
`expectedRowCount` decoration (`none` models undefined). -/
structure ResultStream (ρ : Type) where
  batches : List (List ρ)
  columnTypes : List EvidenceColumnType
  expectedRowCount : Option Nat
  deriving DecidableEq

/-- The successful path of `runQuery` (src/datasource/src/index.cjs,
lines 214-242): the count estimate is taken from the count query when it
succeeded and its failure is swallowed by `.catch(() => null)`, leaving
`expectedRowCount` undefined; the row stream is batched by the
db-commons helper; and the result is decorated with
`mapResultsToEvidenceColumnTypes` of the captured metadata. -/
def runQueryModel {ρ : Type} (env : QueryEnv ρ) (batchSize : Nat) : ResultStream ρ :=
  { batches := chunkRows batchSize env.rows
    columnTypes := mapResultsToEvidenceColumnTypes env.columns
    expectedRowCount :=
      match env.countResult with
      | .ok expected_row_count => some expected_row_count
      | .error _ => none }

/-- The string selected by the catch block of `runQuery`
(src/datasource/src/index.cjs, lines 252-258) before flattening: a
string error is kept as is, otherwise `err?.message` when present, else
`err?.toString?.()`, else the literal 'Unknown error'. -/
def errStrOf : Thrown → String
  | .str s => s
  | .errObj m => m
  | .obj t => t
  | .nullish => "Unknown error"

/-- The catch block of `runQuery` (src/datasource/src/index.cjs, lines
252-259): every failure escaping query execution is rethrown as
`errStr.replace(/\n|\r/g, ' ')`. -/
def runQueryCatch {α : Type} (result : Except Thrown α) : Except String α :=
  match result with
  | .ok a => .ok a
  | .error err => .error (flattenNewlines (errStrOf err))

/-- The object `{reason}` that `testConnection` hands back on failure. -/
structure FailureReason where
  reason : String
  deriving DecidableEq

/-- The `testConnection` entry point (src/datasource/src/index.cjs, lines
289-294): run the trivial query 'SELECT 1 AS TEST;' through the full
executor, drain the resulting stream with `exhaustStream`, resolve with
`true` on success; on rejection resolve with `{reason: e.message ??
(e.toString() || 'Invalid Credentials')}`. `runQuery` rejects with the
flattened string of `runQueryCatch`, on which `.message` is undefined
and `.toString()` is the string itself, the empty string falling back to
'Invalid Credentials'. Draining a finite modelled stream always
succeeds, so the model maps the executor's outcome directly. -/
def testConnectionModel {ρ : Type} (runResult : Except String (ResultStream ρ)) :
    Sum Bool FailureReason :=
  match runResult with
  | .ok _stream => Sum.inl true
  | .error e => Sum.inr ⟨if e = "" then "Invalid Credentials" else e⟩

/-- The query text `testConnection` submits. -/
def testConnectionQuery : String := "SELECT 1 AS TEST;"

/-- A configuration object with every property absent, the base for the
concrete configurations below. -/
def emptyMsSqlDatabase : MsSqlDatabase :=
  ⟨none, none, none, none, none, none, none, none, none,
   none, none, none, none, none, none, none, none, none⟩

/-- A concrete SQL-authentication configuration. -/
def dbDefaultAuth : MsSqlDatabase :=
  { emptyMsSqlDatabase with
      authenticationType := some "default"
      user := some "sa"
      password := some "pw" }

/-- A concrete configuration whose discriminator is the schema default
'sqlauth', which is none of the five values `buildConfig` dispatches on. -/
def dbUnknownAuth : MsSqlDatabase :=
  { emptyMsSqlDatabase with authenticationType := some "sqlauth" }

/-- A concrete access-token configuration. -/
def dbAccessToken : MsSqlDatabase :=
  { emptyMsSqlDatabase with
      authenticationType := some "azure-active-directory-access-token"
      attoken := some "tok123" }

/-- A concrete query environment with five rows and a successful count
estimate. -/
def fiveRowEnv : QueryEnv Nat :=
  ⟨Except.ok 5, [⟨"n", SqlType.int⟩], [10, 20, 30, 40, 50]⟩

/-- A concrete query environment whose count-estimate query failed. -/
def countFailedEnv : QueryEnv Nat :=
  ⟨Except.error "Incorrect syntax near the keyword AS", [⟨"n", SqlType.int⟩], [1, 2, 3]⟩

/-- A work-function trace that fails with a transient signature on its
first invocation and succeeds on every later one. -/
def failOnceFn : Nat → Except Thrown Nat
  | 0 => Except.error (Thrown.str "ETIMEOUT")
  | _ + 1 => Except.ok 42

/-- A work-function trace that fails with a transient signature on its
first two invocations and succeeds on the third. -/
def failTwiceFn : Nat → Except Thrown Nat
  | 0 => Except.error (Thrown.errObj "Connection lost")
  | 1 => Except.error (Thrown.str "ETIMEOUT")
  | _ + 2 => Except.ok 7

/-- A work-function trace that always fails with a transient signature. -/
def alwaysTransientFn : Nat → Except Thrown Nat :=
  fun _ => Except.error (Thrown.str "ETIMEOUT")

/-- A work-function trace that always fails with a fatal (non-transient)
error message. -/
def fatalFn : Nat → Except Thrown Nat :=
  fun _ => Except.error (Thrown.errObj "Incorrect syntax near SELECT")

/-- The default policy values of `withRetry`: maxRetries 3, baseDelay
1000 ms, maxDelay 10000 ms. -/
def defaultWithRetryOptions : WithRetryOptions := ⟨3, 1000, 10000⟩

/-- A degenerate policy whose maxRetries is zero. -/
def zeroRetryOptions : WithRetryOptions := ⟨0, 1000, 10000⟩

/-- A random stream that always draws zero. -/
def zeroRand : Nat → ℚ := fun _ => 0

/-- A random stream that always draws one half. -/
def halfRand : Nat → ℚ := fun _ => 1/2

/-- Concrete options for `retry` that set every field except
`retryableErrors`, which is left to its default. -/
def noRetryableCallOpts : RetryCallOptions := ⟨some 5, some 250, some 3, none⟩

/-! Helper lemmas about the modelled batching. -/

lemma chunkRows_nil {ρ : Type} (batchSize : Nat) : chunkRows batchSize ([] : List ρ) = [] := by
  rw [chunkRows]

lemma chunkRows_cons_eq {ρ : Type} (batchSize : Nat) (hB : batchSize ≠ 0) (r : ρ) (rs : List ρ) :
    chunkRows batchSize (r :: rs) =
      (r :: rs).take batchSize :: chunkRows batchSize ((r :: rs).drop batchSize) := by
  rw [chunkRows]
  simp [hB]

lemma chunkRows_flatten {ρ : Type} (batchSize : Nat) (hB : batchSize ≠ 0) (rows : List ρ) :
    (chunkRows batchSize rows).flatten = rows := by
  suffices h : ∀ n (rows : List ρ), rows.length ≤ n → (chunkRows batchSize rows).flatten = rows from
    h rows.length rows le_rfl
  intro n
  induction n with
  | zero =>
      intro rows hlen
      have hnil : rows = [] := List.length_eq_zero.mp (Nat.le_zero.mp hlen)
      subst hnil
      rw [chunkRows_nil]
      rfl
  | succ n ih =>
      intro rows hlen
      cases rows with
      | nil => rw [chunkRows_nil]; rfl
      | cons r rs =>
          rw [chunkRows_cons_eq batchSize hB r rs, List.flatten_cons]
          rw [ih ((r :: rs).drop batchSize)
            (by simp only [List.length_drop, List.length_cons]
                simp only [List.length_cons] at hlen
                omega)]
          exact List.take_append_drop batchSize (r :: rs)

lemma ceil_div_succ (R B : Nat) (hB : 0 < B) (hR : 0 < R) :
    (R + B - 1) / B = (R - 1) / B + 1 := by
  have h : R + B - 1 = (R - 1) + B := by omega
  rw [h, Nat.add_div_right _ hB]

lemma chunkRows_length {ρ : Type} (batchSize : Nat) (hB : batchSize ≠ 0) (rows : List ρ) :
    (chunkRows batchSize rows).length = (rows.length + batchSize - 1) / batchSize := by
  have hBpos : 0 < batchSize := Nat.pos_of_ne_zero hB
  suffices h : ∀ n (rows : List ρ), rows.length ≤ n →
      (chunkRows batchSize rows).length = (rows.length + batchSize - 1) / batchSize from
    h rows.length rows le_rfl
  intro n
  induction n with
  | zero =>
      intro rows hlen
      have hnil : rows = [] := List.length_eq_zero.mp (Nat.le_zero.mp hlen)
      subst hnil
      rw [chunkRows_nil]
      simp [Nat.div_eq_of_lt (by omega : batchSize - 1 < batchSize)]
  | succ n ih =>
      intro rows hlen
      cases rows with
      | nil =>
          rw [chunkRows_nil]
          simp [Nat.div_eq_of_lt (by omega : batchSize - 1 < batchSize)]
      | cons r rs =>
          rw [chunkRows_cons_eq batchSize hB r rs, List.length_cons]
          rw [ih ((r :: rs).drop batchSize)
            (by simp only [List.length_drop, List.length_cons]
                simp only [List.length_cons] at hlen
                omega)]
          rw [ceil_div_succ ((r :: rs).length) batchSize hBpos (by simp)]
          simp only [List.length_drop, List.length_cons]
          by_cases hRB : rs.length + 1 ≤ batchSize
          · have e1 : rs.length + 1 - batchSize + batchSize - 1 = batchSize - 1 := by omega
            have e2 : rs.length + 1 - 1 = rs.length := by omega
            rw [e1, e2, Nat.div_eq_of_lt (by omega : batchSize - 1 < batchSize),
              Nat.div_eq_of_lt (by omega : rs.length < batchSize)]
          · have e1 : rs.length + 1 - batchSize + batchSize - 1 =
                rs.length + 1 - batchSize - 1 + batchSize := by omega
            have e2 : rs.length + 1 - 1 = rs.length + 1 - batchSize - 1 + batchSize := by omega
            rw [e1, e2, Nat.add_div_right _ hBpos]

lemma chunkRows_sizes {ρ : Type} (batchSize : Nat) (hB : batchSize ≠ 0) (rows : List ρ) :
    ∀ b ∈ chunkRows batchSize rows, b.length ≤ batchSize := by
  suffices h : ∀ n (rows : List ρ), rows.length ≤ n →
      ∀ b ∈ chunkRows batchSize rows, b.length ≤ batchSize from
    h rows.length rows le_rfl
  intro n
  induction n with
  | zero =>
      intro rows hlen b hb
      have hnil : rows = [] := List.length_eq_zero.mp (Nat.le_zero.mp hlen)
      subst hnil
      rw [chunkRows_nil] at hb
      exact absurd hb (List.not_mem_nil b)
  | succ n ih =>
      intro rows hlen b hb
      cases rows with
      | nil =>
          rw [chunkRows_nil] at hb
          exact absurd hb (List.not_mem_nil b)
      | cons r rs =>
          rw [chunkRows_cons_eq batchSize hB r rs] at hb
          rcases List.mem_cons.mp hb with h1 | h2
          · subst h1
            simp [List.length_take]
          · exact ih ((r :: rs).drop batchSize)
              (by simp only [List.length_drop, List.length_cons]
                  simp only [List.length_cons] at hlen
                  omega) b h2

lemma chunkRows_full_batches {ρ : Type} (batchSize : Nat) (hB : batchSize ≠ 0) (rows : List ρ) :
    ∀ i b, i + 1 < (chunkRows batchSize rows).length →
      (chunkRows batchSize rows).get? i = some b → b.length = batchSize := by
  suffices hs : ∀ n (rows : List ρ), rows.length ≤ n →
      ∀ i b, i + 1 < (chunkRows batchSize rows).length →
        (chunkRows batchSize rows).get? i = some b → b.length = batchSize from
    hs rows.length rows le_rfl
  intro n
  induction n with
  | zero =>
      intro rows hlen i b h _hget
      have hnil : rows = [] := List.length_eq_zero.mp (Nat.le_zero.mp hlen)
      subst hnil
      rw [chunkRows_nil] at h
      simp at h
  | succ n ih =>
      intro rows hlen i b h hget
      cases rows with
      | nil =>
          rw [chunkRows_nil] at h
          simp at h
      | cons r rs =>
          have hstep := chunkRows_cons_eq batchSize hB r rs
          rw [hstep] at h hget
          cases i with
          | zero =>
              have hne : chunkRows batchSize ((r :: rs).drop batchSize) ≠ [] := by
                intro hempty
                rw [hempty] at h
                simp at h
              have hdrop : (r :: rs).drop batchSize ≠ [] := by
                intro hempty
                rw [hempty] at hne
                exact hne (chunkRows_nil batchSize)
              have hlt : batchSize < (r :: rs).length := by
                have hp := List.length_pos.mpr hdrop
                simp only [List.length_drop] at hp
                omega
              rw [List.get?_cons_zero] at hget
              have hb : b = (r :: rs).take batchSize := by
                exact (Option.some.injEq _ _ ▸ hget).symm
              subst hb
              rw [List.length_take]
              exact min_eq_left (le_of_lt hlt)
          | succ i =>
              rw [List.get?_cons_succ] at hget
              simp only [List.length_cons] at h
              exact ih ((r :: rs).drop batchSize)
                (by simp only [List.length_drop, List.length_cons]
                    simp only [List.length_cons] at hlen
                    omega) i b (by omega) hget

/-- C2: for every column in the driver-reported metadata, the mapper
returns the documented portable type with fidelity PRECISE when the
native tag is in the fixed table, and STRING with fidelity INFERRED for
every tag outside the table; the output preserves the input column order
(and names), and the mapper is a total function by construction. -/
theorem mapResults_matches_spec_table (fields : List ColumnMetadata) :
    mapResultsToEvidenceColumnTypes fields =
      fields.map (fun field =>
        { name := field.name
          evidenceType := (specPortableType field.type).1
          typeFidelity := (specPortableType field.type).2 }) := by
  induction fields with
  | nil => rfl
  | cons f fs ih =>
      obtain ⟨nm, ty⟩ := f
      simp only [mapResultsToEvidenceColumnTypes, List.map_cons] at ih ⊢
      rw [ih]
      cases ty <;> rfl

/-- C5: for a result set of R rows and a positive batch size B, the
ResultStream produced by the query executor yields exactly ceil(R/B)
batches, every batch other than the last has exactly B rows, every batch
has at most B rows, and concatenating the batches in order reproduces
the source row order exactly. -/
theorem runQuery_batches_spec (ρ : Type) (env : QueryEnv ρ) (batchSize : Nat)
    (hB : 0 < batchSize) :
    (runQueryModel env batchSize).batches.length =
        (env.rows.length + batchSize - 1) / batchSize
    ∧ (∀ i b, i + 1 < (runQueryModel env batchSize).batches.length →
        (runQueryModel env batchSize).batches.get? i = some b → b.length = batchSize)
    ∧ (∀ b ∈ (runQueryModel env batchSize).batches, b.length ≤ batchSize)
    ∧ (runQueryModel env batchSize).batches.flatten = env.rows := by
  have hB' : batchSize ≠ 0 := by omega
  refine ⟨?_, ?_, ?_, ?_⟩
  · exact chunkRows_length batchSize hB' env.rows
  · exact chunkRows_full_batches batchSize hB' env.rows
  · exact chunkRows_sizes batchSize hB' env.rows
  · exact chunkRows_flatten batchSize hB' env.rows

/-- Witness for C5 at a concrete five-row result set with batch size 2. -/
theorem runQuery_batches_spec_witness :
    (runQueryModel fiveRowEnv 2).batches.length = (fiveRowEnv.rows.length + 2 - 1) / 2
    ∧ (runQueryModel fiveRowEnv 2).batches.flatten = fiveRowEnv.rows := by
  have h := runQuery_batches_spec Nat fiveRowEnv 2 (by decide)
  exact ⟨h.1, h.2.2.2⟩

/-- C9: when the row-count-estimate step fails with any error, query
execution is not aborted: expectedRowCount on the returned ResultStream
is undefined, while the row batches and the column-type decoration are
exactly those of a run whose count step succeeded. -/
theorem runQuery_count_failure_nonfatal (ρ : Type) (env : QueryEnv ρ) (batchSize : Nat)
    (msg : String) (h : env.countResult = Except.error msg) :
    (runQueryModel env batchSize).expectedRowCount = none
    ∧ (∀ n : Nat,
        (runQueryModel env batchSize).batches =
          (runQueryModel { env with countResult := Except.ok n } batchSize).batches
        ∧ (runQueryModel env batchSize).columnTypes =
          (runQueryModel { env with countResult := Except.ok n } batchSize).columnTypes) := by
  constructor
  · simp [runQueryModel, h]
  · intro n
    exact ⟨rfl, rfl⟩

/-- Witness for C9 at a concrete environment with a failed count query. -/
theorem runQuery_count_failure_nonfatal_witness :
    (runQueryModel countFailedEnv 2).expectedRowCount = none
    ∧ (runQueryModel countFailedEnv 2).batches =
        (runQueryModel { countFailedEnv with countResult := Except.ok 3 } 2).batches := by
  have h := runQuery_count_failure_nonfatal Nat countFailedEnv 2
    "Incorrect syntax near the keyword AS" rfl
  exact ⟨h.1, (h.2 3).1⟩

/-- C7: every failure escaping runQuery surfaces as a single flattened
string, namely the error's message if present, otherwise its
stringification ('Unknown error' for valueless throws), with every
newline and carriage-return character replaced by a space, so the
surfaced string contains neither character. -/
theorem runQuery_error_flattened (α : Type) (r : Except Thrown α) (s : String)
    (h : runQueryCatch r = Except.error s) :
    (∀ c ∈ s.data, c ≠ '\n' ∧ c ≠ '\r')
    ∧ ∃ err, r = Except.error err ∧ s = flattenNewlines (errStrOf err) := by
  cases r with
  | ok a => simp [runQueryCatch] at h
  | error err =>
      simp only [runQueryCatch, Except.error.injEq] at h
      subst h
      refine ⟨?_, err, rfl, rfl⟩
      intro c hc
      simp only [flattenNewlines] at hc
      rcases List.mem_map.mp hc with ⟨a, _ha, hfa⟩
      by_cases hnl : a = '\n' ∨ a = '\r'
      · rw [if_pos hnl] at hfa
        subst hfa
        exact ⟨by decide, by decide⟩
      · rw [if_neg hnl] at hfa
        subst hfa
        exact not_or.mp hnl

/-- Witness for C7 at a concrete multi-line driver error. -/
theorem runQuery_error_flattened_witness :
    (∀ c ∈ (flattenNewlines (errStrOf (Thrown.errObj "Connection lost\r\nmid-query"))).data,
      c ≠ '\n' ∧ c ≠ '\r')
    ∧ ∃ err,
        (Except.error (Thrown.errObj "Connection lost\r\nmid-query") : Except Thrown Unit) =
          Except.error err
        ∧ flattenNewlines (errStrOf (Thrown.errObj "Connection lost\r\nmid-query")) =
            flattenNewlines (errStrOf err) := by
  exact runQuery_error_flattened Unit
    (Except.error (Thrown.errObj "Connection lost\r\nmid-query")) _ rfl

/-- C8: testConnection routes its trivial query through the full
executor and drains the stream; it returns exactly `true` when execution
succeeds, and on any execution failure it does not throw (the model is a
total function into `Sum`) but returns an object whose `reason` field is
a non-empty string. -/
theorem testConnection_contract (ρ : Type) (r : Except String (ResultStream ρ)) :
    (∀ stream, r = Except.ok stream → testConnectionModel r = Sum.inl true)
    ∧ (∀ msg, r = Except.error msg →
        ∃ reason, testConnectionModel r = Sum.inr ⟨reason⟩ ∧ reason ≠ "") := by
  constructor
  · intro stream hs
    subst hs
    rfl
  · intro msg hm
    subst hm
    by_cases h0 : msg = ""
    · subst h0
      exact ⟨"Invalid Credentials", rfl, by decide⟩
    · exact ⟨msg, by simp [testConnectionModel, h0], h0⟩

/-- Witness for C8 at a concrete successful run and a concrete failure
whose flattened message is empty. -/
theorem testConnection_contract_witness :
    ∃ reason,
      testConnectionModel (Except.error "" : Except String (ResultStream Unit)) =
        Sum.inr ⟨reason⟩ ∧ reason ≠ "" := by
  exact (testConnection_contract Unit (Except.error "")).2 "" rfl

/-! Helper lemmas about the `withRetry` loop. -/

lemma withRetryGo_eq_ok {α : Type} (fn : Nat → Except Thrown α) (o : WithRetryOptions)
    (rand : Nat → ℚ) (attempts gas : Nat) (a : α) (h : fn attempts = Except.ok a) :
    withRetryGo fn o rand attempts gas = (Except.ok a, attempts + 1, []) := by
  rw [withRetryGo.eq_def]
  simp only [h]

lemma withRetryGo_eq_throw {α : Type} (fn : Nat → Except Thrown α) (o : WithRetryOptions)
    (rand : Nat → ℚ) (attempts gas : Nat) (e : Thrown) (h : fn attempts = Except.error e)
    (hc : o.maxRetries ≤ attempts + 1 ∨ shouldRetry e = false) :
    withRetryGo fn o rand attempts gas = (Except.error e, attempts + 1, []) := by
  rw [withRetryGo.eq_def]
  simp only [h]
  rw [if_pos hc]

lemma withRetryGo_eq_retry {α : Type} (fn : Nat → Except Thrown α) (o : WithRetryOptions)
    (rand : Nat → ℚ) (attempts g : Nat) (e : Thrown) (h : fn attempts = Except.error e)
    (hc1 : ¬ o.maxRetries ≤ attempts + 1) (hc2 : shouldRetry e = true) :
    withRetryGo fn o rand attempts (g + 1) =
      ((withRetryGo fn o rand (attempts + 1) g).1,
       (withRetryGo fn o rand (attempts + 1) g).2.1,
       min o.maxDelay (o.baseDelay * 2 ^ attempts * (1 + rand attempts * (1/5))) ::
         (withRetryGo fn o rand (attempts + 1) g).2.2) := by
  rw [withRetryGo.eq_def]
  simp only [h]
  rw [if_neg (not_or.mpr ⟨hc1, by simp [hc2]⟩)]

lemma withRetryGo_success {α : Type} (fn : Nat → Except Thrown α) (o : WithRetryOptions)
    (rand : Nat → ℚ) :
    ∀ k attempts gas (a : α),
      (∀ i, i < k → ∃ e, fn (attempts + i) = Except.error e ∧ shouldRetry e = true) →
      fn (attempts + k) = Except.ok a →
      attempts + k < o.maxRetries →
      o.maxRetries ≤ attempts + gas + 1 →
      (withRetryGo fn o rand attempts gas).1 = Except.ok a
      ∧ (withRetryGo fn o rand attempts gas).2.1 = attempts + k + 1 := by
  intro k
  induction k with
  | zero =>
      intro attempts gas a _hfail hok _hlt _hgas
      rw [Nat.add_zero] at hok
      rw [withRetryGo_eq_ok fn o rand attempts gas a hok]
      exact ⟨rfl, rfl⟩
  | succ k ih =>
      intro attempts gas a hfail hok hlt hgas
      obtain ⟨e, he, hr⟩ := hfail 0 (Nat.succ_pos k)
      rw [Nat.add_zero] at he
      have hlt1 : attempts + 1 < o.maxRetries := by omega
      cases gas with
      | zero => omega
      | succ g =>
          rw [withRetryGo_eq_retry fn o rand attempts g e he (by omega) hr]
          have ih2 := ih (attempts + 1) g a
            (by intro i hi
                obtain ⟨e2, he2, hr2⟩ := hfail (i + 1) (by omega)
                refine ⟨e2, ?_, hr2⟩
                rw [show attempts + 1 + i = attempts + (i + 1) from by omega]
                exact he2)
            (by rw [show attempts + 1 + k = attempts + (k + 1) from by omega]; exact hok)
            (by omega) (by omega)
          refine ⟨ih2.1, ?_⟩
          rw [show attempts + (k + 1) + 1 = attempts + 1 + k + 1 from by omega]
          exact ih2.2

lemma withRetryGo_exhaust {α : Type} (fn : Nat → Except Thrown α) (o : WithRetryOptions)
    (rand : Nat → ℚ)
    (hall : ∀ i, ∃ e, fn i = Except.error e ∧ shouldRetry e = true) :
    ∀ gas attempts,
      attempts < o.maxRetries →
      o.maxRetries ≤ attempts + gas + 1 →
      (withRetryGo fn o rand attempts gas).2.1 = o.maxRetries
      ∧ ∃ e, fn (o.maxRetries - 1) = Except.error e
          ∧ (withRetryGo fn o rand attempts gas).1 = Except.error e := by
  intro gas
  induction gas with
  | zero =>
      intro attempts hlt hgas
      obtain ⟨e, he, _hr⟩ := hall attempts
      rw [withRetryGo_eq_throw fn o rand attempts 0 e he (Or.inl (by omega))]
      refine ⟨show attempts + 1 = o.maxRetries from by omega, e, ?_, rfl⟩
      rw [show o.maxRetries - 1 = attempts from by omega]
      exact he
  | succ g ih =>
      intro attempts hlt hgas
      obtain ⟨e, he, hr⟩ := hall attempts
      by_cases hc : o.maxRetries ≤ attempts + 1
      · rw [withRetryGo_eq_throw fn o rand attempts (g + 1) e he (Or.inl hc)]
        refine ⟨show attempts + 1 = o.maxRetries from by omega, e, ?_, rfl⟩
        rw [show o.maxRetries - 1 = attempts from by omega]
        exact he
      · rw [withRetryGo_eq_retry fn o rand attempts g e he hc hr]
        have ih2 := ih (attempts + 1) (by omega) (by omega)
        exact ⟨ih2.1, ih2.2⟩

/-- C1 counterexample: the claim as stated bounds the total number of
invocations by maxRetries for an always-transiently-failing work
function; with maxRetries = 0 the loop still invokes the function once,
exceeding the bound. -/
theorem withRetry_maxRetries_zero_counterexample :
    (withRetry alwaysTransientFn zeroRetryOptions zeroRand).2.1 = 1
    ∧ ¬((withRetry alwaysTransientFn zeroRetryOptions zeroRand).2.1 ≤ zeroRetryOptions.maxRetries) := by
  constructor
  · rfl
  · decide

/-- C1 (amended): for a work function that fails with transient-signature
errors exactly k times and then succeeds, with maxRetries > k, withRetry
returns the successful result after exactly k+1 invocations; for a work
function that always fails with transient-signature errors and
maxRetries ≥ 1, withRetry makes exactly maxRetries invocations (so never
more than maxRetries) and fails with the error of the last invocation;
with maxRetries = 0 the work function is still invoked exactly once. -/
theorem withRetry_attempt_accounting :
    (∀ (α : Type) (fn : Nat → Except Thrown α) (o : WithRetryOptions) (rand : Nat → ℚ)
        (k : Nat) (a : α),
      (∀ i, i < k → ∃ e, fn i = Except.error e ∧ shouldRetry e = true) →
      fn k = Except.ok a → k < o.maxRetries →
      (withRetry fn o rand).1 = Except.ok a ∧ (withRetry fn o rand).2.1 = k + 1)
    ∧ (∀ (α : Type) (fn : Nat → Except Thrown α) (o : WithRetryOptions) (rand : Nat → ℚ),
      (∀ i, ∃ e, fn i = Except.error e ∧ shouldRetry e = true) → 1 ≤ o.maxRetries →
      (withRetry fn o rand).2.1 = o.maxRetries
      ∧ ∃ e, fn (o.maxRetries - 1) = Except.error e
          ∧ (withRetry fn o rand).1 = Except.error e)
    ∧ (∀ (α : Type) (fn : Nat → Except Thrown α) (o : WithRetryOptions) (rand : Nat → ℚ)
        (e : Thrown),
      o.maxRetries = 0 → fn 0 = Except.error e → (withRetry fn o rand).2.1 = 1) := by
  refine ⟨?_, ?_, ?_⟩
  · intro α fn o rand k a hfail hok hlt
    have h := withRetryGo_success fn o rand k 0 o.maxRetries a
      (by intro i hi; simpa using hfail i hi)
      (by simpa using hok) (by omega) (by omega)
    exact ⟨h.1, by simpa using h.2⟩
  · intro α fn o rand hall h1
    exact withRetryGo_exhaust fn o rand hall o.maxRetries 0 (by omega) (by omega)
  · intro α fn o rand e h0 hf
    rw [show (withRetry fn o rand) = withRetryGo fn o rand 0 o.maxRetries from rfl,
      withRetryGo_eq_throw fn o rand 0 o.maxRetries e hf (Or.inl (by omega))]

/-- Witness for the amended C1: a function that fails transiently once
then succeeds, under the default policy, succeeds after exactly two
invocations. -/
theorem withRetry_attempt_accounting_witness :
    (withRetry failOnceFn defaultWithRetryOptions zeroRand).1 = Except.ok 42
    ∧ (withRetry failOnceFn defaultWithRetryOptions zeroRand).2.1 = 1 + 1 := by
  exact withRetry_attempt_accounting.1 Nat failOnceFn defaultWithRetryOptions zeroRand 1 42
    (by intro i hi
        have hi0 : i = 0 := by omega
        subst hi0
        exact ⟨Thrown.str "ETIMEOUT", rfl, by decide⟩)
    rfl (by decide)

/-- C3: for every work function and every error that matches none of the
transient-error signatures (shouldRetry classifies it false), withRetry
fails after exactly one invocation regardless of maxRetries, and the
error value it propagates is the error the work function threw,
unchanged. -/
theorem withRetry_fatal_single_attempt (α : Type) (fn : Nat → Except Thrown α)
    (o : WithRetryOptions) (rand : Nat → ℚ) (e : Thrown)
    (hf : fn 0 = Except.error e) (hfatal : shouldRetry e = false) :
    withRetry fn o rand = (Except.error e, 1, []) := by
  rw [show (withRetry fn o rand) = withRetryGo fn o rand 0 o.maxRetries from rfl,
    withRetryGo_eq_throw fn o rand 0 o.maxRetries e hf (Or.inr hfatal)]

/-- Witness for C3: a syntax error fails the default policy after one
invocation, propagated unchanged. -/
theorem withRetry_fatal_single_attempt_witness :
    withRetry fatalFn defaultWithRetryOptions zeroRand =
      (Except.error (Thrown.errObj "Incorrect syntax near SELECT"), 1, []) := by
  exact withRetry_fatal_single_attempt Nat fatalFn defaultWithRetryOptions zeroRand
    (Thrown.errObj "Incorrect syntax near SELECT") rfl (by decide)

lemma withRetryGo_waits {α : Type} (fn : Nat → Except Thrown α) (o : WithRetryOptions)
    (rand : Nat → ℚ) :
    ∀ gas attempts i w,
      ((withRetryGo fn o rand attempts gas).2.2).get? i = some w →
      w = min o.maxDelay
            (o.baseDelay * 2 ^ (attempts + i) * (1 + rand (attempts + i) * (1/5))) := by
  intro gas
  induction gas with
  | zero =>
      intro attempts i w hget
      rcases hf : fn attempts with e | a
      · by_cases hc : o.maxRetries ≤ attempts + 1 ∨ shouldRetry e = false
        · rw [withRetryGo_eq_throw fn o rand attempts 0 e hf hc] at hget
          simp at hget
        · rw [withRetryGo.eq_def] at hget
          simp only [hf] at hget
          rw [if_neg hc] at hget
          simp at hget
      · rw [withRetryGo_eq_ok fn o rand attempts 0 a hf] at hget
        simp at hget
  | succ g ih =>
      intro attempts i w hget
      rcases hf : fn attempts with e | a
      case ok =>
        rw [withRetryGo_eq_ok fn o rand attempts (g + 1) a hf] at hget
        simp at hget
      · by_cases hc : o.maxRetries ≤ attempts + 1 ∨ shouldRetry e = false
        · rw [withRetryGo_eq_throw fn o rand attempts (g + 1) e hf hc] at hget
          simp at hget
        · push_neg at hc
          have hr : shouldRetry e = true := by
            cases hsr : shouldRetry e with
            | false => exact absurd hsr hc.2
            | true => rfl
          rw [withRetryGo_eq_retry fn o rand attempts g e hf (by omega) hr] at hget
          cases i with
          | zero =>
              simp only [List.get?_cons_zero, Option.some.injEq] at hget
              rw [← hget, Nat.add_zero]
          | succ i =>
              simp only [List.get?_cons_succ] at hget
              have := ih (attempts + 1) i w hget
              rw [this, show attempts + 1 + i = attempts + (i + 1) from by omega]

/-- C6: for every retried attempt number `attempt` (attempt 1 being the
first failure), the wait recorded before the next invocation equals
min(maxDelay, baseDelay * 2^(attempt-1) * jitter) where jitter is
1 + Math.random() * 0.2; when the random draw lies in [0, 1), as
Math.random guarantees, the jitter lies in [1.0, 1.2). The wait at index
i of the recorded delay list is the wait after failure number i+1. -/
theorem withRetry_backoff_delay_formula (α : Type) (fn : Nat → Except Thrown α)
    (o : WithRetryOptions) (rand : Nat → ℚ) (i : Nat) (w : ℚ)
    (h : ((withRetry fn o rand).2.2).get? i = some w) :
    w = min o.maxDelay (o.baseDelay * 2 ^ i * (1 + rand i * (1/5)))
    ∧ (0 ≤ rand i → rand i < 1 →
        1 ≤ 1 + rand i * (1/5) ∧ 1 + rand i * (1/5) < 6/5) := by
  constructor
  · have hw := withRetryGo_waits fn o rand o.maxRetries 0 i w h
    simpa using hw
  · intro h0 h1
    constructor
    · nlinarith
    · nlinarith

/-- Witness for C6: in a run that fails transiently twice under the
default policy with random draws of one half, the first recorded wait
matches the backoff formula at attempt 1, and the jitter bounds hold. -/
theorem withRetry_backoff_delay_formula_witness :
    min defaultWithRetryOptions.maxDelay
        (defaultWithRetryOptions.baseDelay * 2 ^ 0 * (1 + halfRand 0 * (1/5))) =
      min defaultWithRetryOptions.maxDelay
        (defaultWithRetryOptions.baseDelay * 2 ^ 0 * (1 + halfRand 0 * (1/5)))
    ∧ (0 ≤ halfRand 0 → halfRand 0 < 1 →
        1 ≤ 1 + halfRand 0 * (1/5) ∧ 1 + halfRand 0 * (1/5) < 6/5) := by
  exact withRetry_backoff_delay_formula Nat failTwiceFn defaultWithRetryOptions halfRand 0
    (min defaultWithRetryOptions.maxDelay
      (defaultWithRetryOptions.baseDelay * 2 ^ 0 * (1 + halfRand 0 * (1/5)))) rfl

lemma retryGo_first_call_not_retryable {α : Type} (fn : Nat → Except Thrown α)
    (o : RetryOptions) (gas : Nat) (ho : o.retryableErrors = []) :
    (retryGo fn o 0 gas).2.1 = 1 := by
  rcases hf : fn 0 with e | a
  · rw [retryGo.eq_def]
    simp only [hf, ho, List.any_nil]
    simp
  · rw [retryGo.eq_def]
    simp only [hf]

/-- C10: when `retry` in src/datasource/src/index.cjs is invoked without
an explicit retryableErrors option, the destructuring default makes the
list empty, every error message is then classified non-retryable, and the
work function is invoked exactly once, whatever the retries, delay and
backoffFactor settings are. -/
theorem retry_default_retryable_empty :
    (∀ c : RetryCallOptions, c.retryableErrors = none →
      (resolveRetryOptions c).retryableErrors = [])
    ∧ (∀ (c : RetryCallOptions) (m : String), c.retryableErrors = none →
        ((resolveRetryOptions c).retryableErrors.any
          (fun retryError => strIncludes m retryError)) = false)
    ∧ (∀ (α : Type) (fn : Nat → Except Thrown α) (c : RetryCallOptions),
        c.retryableErrors = none → (retry fn (resolveRetryOptions c)).2.1 = 1) := by
  refine ⟨?_, ?_, ?_⟩
  · intro c h
    simp [resolveRetryOptions, h]
  · intro c m h
    simp [resolveRetryOptions, h]
  · intro α fn c h
    exact retryGo_first_call_not_retryable fn (resolveRetryOptions c)
      (resolveRetryOptions c).retries (by simp [resolveRetryOptions, h])

/-- Witness for C10: with every other option set explicitly but
retryableErrors omitted, a failing work function is invoked exactly
once. -/
theorem retry_default_retryable_empty_witness :
    (retry fatalFn (resolveRetryOptions noRetryableCallOpts)).2.1 = 1 := by
  exact retry_default_retryable_empty.2.2 Nat fatalFn noRetryableCallOpts rfl

/-- C4 counterexample: for the known discriminator 'default' the built
descriptor carries no authentication block at all (so it is not the case
that each of the five known values yields exactly one populated
authentication.type), and for the unknown discriminator 'sqlauth' the
builder returns undefined rather than a connection descriptor without an
authentication block. -/
theorem buildConfig_auth_dispatch_counterexample :
    ((buildConfig dbDefaultAuth).map Credentials.authentication = some none)
    ∧ buildConfig dbUnknownAuth = none := by
  constructor
  · rfl
  · rfl

/-- C4 (amended): for each of the four azure-active-directory
discriminator values the credential builder returns a descriptor with
exactly one authentication.type populated with only that variant's
fields; for 'default' it returns a descriptor with no authentication
block (SQL credentials stay at top level); and for every discriminator
outside the five known values it raises no error and returns undefined
(no descriptor at all). -/
theorem buildConfig_auth_dispatch :
    (∀ db : MsSqlDatabase, db.authenticationType = some "default" →
      ∃ c, buildConfig db = some c ∧ c.authentication = none)
    ∧ (∀ db : MsSqlDatabase, db.authenticationType = some "azure-active-directory-default" →
      ∃ c, buildConfig db = some c
        ∧ c.authentication = some Authentication.azureActiveDirectoryDefault)
    ∧ (∀ db : MsSqlDatabase, db.authenticationType = some "azure-active-directory-access-token" →
      ∃ c, buildConfig db = some c
        ∧ c.authentication = some (Authentication.azureActiveDirectoryAccessToken db.attoken))
    ∧ (∀ db : MsSqlDatabase, db.authenticationType = some "azure-active-directory-password" →
      ∃ c, buildConfig db = some c
        ∧ c.authentication = some (Authentication.azureActiveDirectoryPassword
            db.pwuname db.pwpword db.pwclientid db.pwtenantid))
    ∧ (∀ db : MsSqlDatabase,
        db.authenticationType = some "azure-active-directory-service-principal-secret" →
      ∃ c, buildConfig db = some c
        ∧ c.authentication = some (Authentication.azureActiveDirectoryServicePrincipalSecret
            db.spclientid db.spclientsecret db.sptenantid))
    ∧ (∀ db : MsSqlDatabase,
        db.authenticationType ≠ some "default" →
        db.authenticationType ≠ some "azure-active-directory-default" →
        db.authenticationType ≠ some "azure-active-directory-access-token" →
        db.authenticationType ≠ some "azure-active-directory-password" →
        db.authenticationType ≠ some "azure-active-directory-service-principal-secret" →
        buildConfig db = none) := by
  refine ⟨?_, ?_, ?_, ?_, ?_, ?_⟩
  · intro db h
    simp only [buildConfig]
    rw [if_pos h]
    exact ⟨_, rfl, rfl⟩
  · intro db h
    simp only [buildConfig]
    rw [if_neg (by rw [h]; decide), if_pos h]
    exact ⟨_, rfl, rfl⟩
  · intro db h
    simp only [buildConfig]
    rw [if_neg (by rw [h]; decide), if_neg (by rw [h]; decide), if_pos h]
    exact ⟨_, rfl, rfl⟩
  · intro db h
    simp only [buildConfig]
    rw [if_neg (by rw [h]; decide), if_neg (by rw [h]; decide), if_neg (by rw [h]; decide),
      if_pos h]
    exact ⟨_, rfl, rfl⟩
  · intro db h
    simp only [buildConfig]
    rw [if_neg (by rw [h]; decide), if_neg (by rw [h]; decide), if_neg (by rw [h]; decide),
      if_neg (by rw [h]; decide), if_pos h]
    exact ⟨_, rfl, rfl⟩
  · intro db h1 h2 h3 h4 h5
    simp only [buildConfig]
    rw [if_neg h1, if_neg h2, if_neg h3, if_neg h4, if_neg h5]

/-- Witness for the amended C4: a concrete access-token configuration
produces a descriptor whose sole authentication block is the
access-token variant carrying the configured token. -/
theorem buildConfig_auth_dispatch_witness :
    ∃ c, buildConfig dbAccessToken = some c
      ∧ c.authentication =
          some (Authentication.azureActiveDirectoryAccessToken dbAccessToken.attoken) := by
  exact buildConfig_auth_dispatch.2.2.1 dbAccessToken rfl
